import Mathlib

/-
  A verification development for the Vanaheimr VIR instruction model and the
  PTX-to-VIR translator (src/trunk/vanaheimr).  Definitions are shallow
  embeddings of the C++ source files
  `translation/implementation/PTXToVIRTranslator.cpp` and
  `ir/implementation/Instruction.cpp`; theorems settle the specification's
  claims about them.
-/

set_option autoImplicit false

namespace Vanaheimr

/-! ## The consumed PTX (Ocelot) operand interface

The translator consumes `::ir::PTXOperand` and `::ir::PTXInstruction`.
Only the parts the translator actually uses are embedded: the data-type
enumeration with its `isFloat` / `isSigned` / `bytes` queries, the opcode
enumeration, and the modifier test `modifier == Modifier_invalid`. -/

/-- The PTX operand data types used by the translator (Ocelot
`PTXOperand::DataType`): signed, unsigned and untyped-bit integers of
8/16/32/64 bits, 32/64-bit floats, and the predicate type. -/
inductive PTXDataType
  | s8 | s16 | s32 | s64
  | u8 | u16 | u32 | u64
  | b8 | b16 | b32 | b64
  | f32 | f64
  | pred
deriving DecidableEq, Repr, Fintype

namespace PTXDataType

/-- `PTXOperand::isFloat`: the 32/64-bit floating point types. -/
def isFloat : PTXDataType → Bool
  | f32 => true
  | f64 => true
  | _   => false

/-- `PTXOperand::isSigned`: the signed integer types. -/
def isSigned : PTXDataType → Bool
  | s8 => true | s16 => true | s32 => true | s64 => true
  | _  => false

/-- `PTXOperand::bytes`: the width of the type in bytes. -/
def bytes : PTXDataType → Nat
  | s8 => 1 | u8 => 1 | b8 => 1
  | s16 => 2 | u16 => 2 | b16 => 2
  | s32 => 4 | u32 => 4 | b32 => 4 | f32 => 4
  | s64 => 8 | u64 => 8 | b64 => 8 | f64 => 8
  | pred => 1

/-- The unsigned integer type class (the `u` types). -/
def isUnsignedInt : PTXDataType → Bool
  | u8 => true | u16 => true | u32 => true | u64 => true
  | _  => false

end PTXDataType

/-- The PTX opcodes the translator's dispatchers inspect (Ocelot
`PTXInstruction::Opcode`); `Exit` stands in for the remaining opcodes with
no lowering rule. -/
inductive PTXOpcode
  | Add | And | Div | Mul | Not | Or | Rem | Shl | Sub | Xor
  | Ld | Ldu | Mov | St | Cvt
  | Bra | Exit
deriving DecidableEq, Repr, Fintype

/-- The PTX instruction modifier as tested by the translator: either
`Modifier_invalid` (no modifier) or some modifier bit. -/
inductive PTXModifier
  | Modifier_invalid
  | Modifier_sat
  | Modifier_rn
deriving DecidableEq, Repr, Fintype

/-- The fields of an Ocelot `PTXInstruction` read by the lowering
dispatchers: the opcode, the instruction's operand type, the modifier and
the data types of the `d` and `a` operands. -/
structure PTXInstrS where
  opcode : PTXOpcode
  type : PTXDataType
  modifier : PTXModifier
  dType : PTXDataType
  aType : PTXDataType
deriving DecidableEq, Repr

/-! ## The VIR opcode enumeration (`Instruction::Opcode`) -/

/-- The closed VIR opcode enumeration of `ir/interface/Instruction.h`, as
enumerated by `Instruction::toString(Opcode)` in `Instruction.cpp`. -/
inductive Opcode
  | Add | And | Ashr | Atom | Bar | Bitcast | Bra | Call
  | Fdiv | Fmul | Fpext | Fptosi | Fptoui | Fptrunc | Frem
  | Launch | Ld | Lshr | Membar | Mul | Or | Ret | Setp
  | Sext | Sdiv | Shl | Sitofp | Srem | St | Sub | Trunc
  | Udiv | Uitofp | Urem | Xor | Zext | Phi | Psi
  | InvalidOpcode
deriving DecidableEq, Repr, Fintype

/-- `Instruction::toString(Opcode)` from `Instruction.cpp`. -/
def Opcode.render : Opcode → String
  | .Add => "Add" | .And => "And" | .Ashr => "Ashr" | .Atom => "Atom"
  | .Bar => "Bar" | .Bitcast => "Bitcast" | .Bra => "Bra" | .Call => "Call"
  | .Fdiv => "Fdiv" | .Fmul => "Fmul" | .Fpext => "Fpext"
  | .Fptosi => "Fptosi" | .Fptoui => "Fptoui" | .Fptrunc => "Fptrunc"
  | .Frem => "Frem" | .Launch => "Launch" | .Ld => "Ld" | .Lshr => "Lshr"
  | .Membar => "Membar" | .Mul => "Mul" | .Or => "Or" | .Ret => "Ret"
  | .Setp => "Setp" | .Sext => "Sext" | .Sdiv => "Sdiv" | .Shl => "Shl"
  | .Sitofp => "Sitofp" | .Srem => "Srem" | .St => "St" | .Sub => "Sub"
  | .Trunc => "Trunc" | .Udiv => "Udiv" | .Uitofp => "Uitofp"
  | .Urem => "Urem" | .Xor => "Xor" | .Zext => "Zext"
  | .Phi => "Phi" | .Psi => "Psi"
  | .InvalidOpcode => "InvalidOpcode"

/-! ## Unary lowering and the conversion decision tree
(`newUnaryInstruction` in `PTXToVIRTranslator.cpp`) -/

/-- The `Cvt` branch of `newUnaryInstruction`: the nested conditional on
the destination (`ptx.d.type`) and source (`ptx.a.type`) operand types.
Every path of the C++ `Cvt` case returns a freshly allocated instruction,
so the result is total. -/
def cvtLoweringOpcode (dT aT : PTXDataType) : Opcode :=
  if dT.isFloat then
    if aT.isFloat then
      if dT = .f32 then
        if aT = .f32 then .Bitcast else .Fptrunc
      else
        if aT = .f32 then .Fpext else .Bitcast
    else if aT.isSigned then .Sitofp
    else .Uitofp
  else if dT.isSigned then
    if aT.isFloat then .Fptosi
    else if aT.bytes > dT.bytes then .Trunc
    else if dT.bytes = aT.bytes then .Bitcast
    else if aT.isSigned then .Sext
    else .Zext
  else
    if aT.isFloat then .Fptoui
    else if aT.bytes > dT.bytes then .Trunc
    else if dT.bytes = aT.bytes then .Bitcast
    else .Zext

/-- `newUnaryInstruction`: `Ld`/`Ldu` lower to a VIR `Ld`, `Mov` to
`Bitcast`, `Cvt` through the conversion decision tree; every other opcode
falls through the switch and the function returns the null pointer
(`none`). -/
def newUnaryInstruction (ptx : PTXInstrS) : Option Opcode :=
  match ptx.opcode with
  | .Ld  => some .Ld
  | .Ldu => some .Ld
  | .Mov => some .Bitcast
  | .Cvt => some (cvtLoweringOpcode ptx.dType ptx.aType)
  | _    => none

/-- The conversion decision table exactly as the specification states it
(spec section 4.3), keyed by destination/source type class and bit width.
This is the specification-side definition to be compared against
`cvtLoweringOpcode`, which is embedded from the source. -/
def cvtSpecRule (dst src : PTXDataType) : Option Opcode :=
  if dst.isFloat then
    if src.isFloat then
      if src.bytes = dst.bytes then some .Bitcast
      else if src.bytes < dst.bytes then some .Fpext
      else some .Fptrunc
    else if src.isSigned then some .Sitofp
    else if src.isUnsignedInt then some .Uitofp
    else none
  else if dst.isSigned then
    if src.isFloat then some .Fptosi
    else if src.isSigned ∨ src.isUnsignedInt then
      if src.bytes > dst.bytes then some .Trunc
      else if src.bytes = dst.bytes then some .Bitcast
      else if src.isSigned then some .Sext
      else some .Zext
    else none
  else if dst.isUnsignedInt then
    if src.isFloat then some .Fptoui
    else if src.isSigned ∨ src.isUnsignedInt then
      if src.bytes > dst.bytes then some .Trunc
      else if src.bytes = dst.bytes then some .Bitcast
      else some .Zext
    else none
  else none

/-- The claim's type domain: 8/16/32/64-bit signed and unsigned integers
and the 32/64-bit floats. -/
def claimTypes : List PTXDataType :=
  [.s8, .s16, .s32, .s64, .u8, .u16, .u32, .u64, .f32, .f64]

/-! ## Binary lowering (`isSimpleBinaryInstruction`, `newBinaryInstruction`) -/

/-- `isSimpleBinaryInstruction`: the switch recognizing
Add/And/Div/Mul/Not/Or/Rem/Shl/Sub/Xor (note that `Not` is recognized). -/
def isSimpleBinaryInstruction (op : PTXOpcode) : Bool :=
  match op with
  | .Add => true | .And => true | .Div => true | .Mul => true
  | .Not => true | .Or => true | .Rem => true | .Shl => true
  | .Sub => true | .Xor => true
  | _ => false

/-- `newBinaryInstruction`: the opcode-keyed factory.  `Div` and `Rem`
split on the instruction type into float/signed/unsigned variants; `Mul`
splits only into `Fmul` versus the single integer `Mul`; the remaining
recognized opcodes map 1:1.  Opcodes with no case — including `Not` —
fall through and the function returns the null pointer (`none`). -/
def newBinaryInstruction (op : PTXOpcode) (t : PTXDataType) : Option Opcode :=
  match op with
  | .Add => some .Add
  | .And => some .And
  | .Div =>
      if t.isFloat then some .Fdiv
      else if t.isSigned then some .Sdiv
      else some .Udiv
  | .Mul => if t.isFloat then some .Fmul else some .Mul
  | .Or => some .Or
  | .Rem =>
      if t.isFloat then some .Frem
      else if t.isSigned then some .Srem
      else some .Urem
  | .Shl => some .Shl
  | .Sub => some .Sub
  | .Xor => some .Xor
  | _ => none

/-- The claim's notion of a three-way disambiguation by operand type: a
float variant, a signed-integer variant and an unsigned-integer variant,
pairwise distinct, chosen by the operand's type class. -/
def disambiguatedByType (op : PTXOpcode) : Prop :=
  ∃ f s u : Opcode, f ≠ s ∧ f ≠ u ∧ s ≠ u ∧
    ∀ t ∈ claimTypes,
      (t.isFloat = true → newBinaryInstruction op t = some f) ∧
      (t.isSigned = true → newBinaryInstruction op t = some s) ∧
      (t.isUnsignedInt = true → newBinaryInstruction op t = some u)

/-! ## Unary recognition and the instruction dispatch
(`isSimpleUnaryInstruction`, `_translateInstruction`) -/

/-- `isSimpleUnaryInstruction`: recognizes `Ld`/`Ldu`/`Mov`/`St`, and
`Cvt` exactly when the instruction carries no modifier. -/
def isSimpleUnaryInstruction (ptx : PTXInstrS) : Bool :=
  match ptx.opcode with
  | .Ld => true | .Ldu => true | .Mov => true | .St => true
  | .Cvt => ptx.modifier = .Modifier_invalid
  | _ => false

/-- The possible outcomes of `_translateInstruction` on one source
instruction. -/
inductive LowerResult
  /-- A lowering rule matched and produced the given VIR opcode. -/
  | translated (vir : Opcode)
  /-- No dispatcher matched: the `assertM(false, "No translation
  implemented for instruction ...")` fatal error fires. -/
  | unimplementedAssert
  /-- A dispatcher matched but its factory returned the null pointer,
  which the dispatcher immediately dereferences (`vir->setGuard(...)`):
  a crash, not the unimplemented-instruction assertion. -/
  | nullDeref
deriving DecidableEq, Repr

/-- `_translateInstruction`: tries `_translateComplexInstruction` (which
always returns `false`), then `_translateSimpleBinaryInstruction`, then
`_translateSimpleUnaryInstruction`; if none match it raises the fatal
`assertM`.  Each simple dispatcher, once its recognizer accepts, calls
its `new*Instruction` factory and unconditionally dereferences the
result. -/
def translateInstruction (ptx : PTXInstrS) : LowerResult :=
  if isSimpleBinaryInstruction ptx.opcode then
    match newBinaryInstruction ptx.opcode ptx.type with
    | some o => .translated o
    | none => .nullDeref
  else if isSimpleUnaryInstruction ptx then
    match newUnaryInstruction ptx with
    | some o => .translated o
    | none => .nullDeref
  else .unimplementedAssert

end Vanaheimr

namespace Vanaheimr

/-! ## Claim C1: the conversion decision table -/

/-- C1: for a type-preserving `cvt`, the unary lowering chooses exactly
the opcode given by the specification's conversion decision table, for
every (source, destination) pair drawn from the 8/16/32/64-bit integer
and 32/64-bit float types, with no pair omitted. -/
theorem c1_cvt_table (d a : PTXDataType) (m : PTXModifier)
    (hd : d ∈ claimTypes) (ha : a ∈ claimTypes) :
    newUnaryInstruction ⟨.Cvt, d, m, d, a⟩ = cvtSpecRule d a ∧
    (cvtSpecRule d a).isSome = true := by
  revert hd ha
  revert d a m
  decide

/-- Witness for C1 at the concrete pair `cvt` from `f32` to `f64`. -/
theorem c1_cvt_table_witness :
    newUnaryInstruction ⟨.Cvt, .f64, .Modifier_invalid, .f64, .f32⟩ =
      some Opcode.Fpext := by
  have h := c1_cvt_table .f64 .f32 .Modifier_invalid (by decide) (by decide)
  have : cvtSpecRule .f64 .f32 = some Opcode.Fpext := by decide
  rw [h.1, this]

/-! ## Claim C4: simple binary lowering -/

/-- C4 counterexample: the claim that `mul` is disambiguated by operand
type into three variants (float, signed-integer, unsigned-integer) is
false — `newBinaryInstruction` maps both `s32` and `u32` `mul` to the
same single integer opcode `Mul`, so no pair of distinct signed and
unsigned variants exists. -/
theorem c4_counterexample : ¬ disambiguatedByType PTXOpcode.Mul := by
  rintro ⟨f, s, u, _, _, hsu, h⟩
  have hs := (h .s32 (by decide)).2.1 (by decide)
  have hu := (h .u32 (by decide)).2.2 (by decide)
  rw [show newBinaryInstruction .Mul .s32 = some Opcode.Mul from rfl] at hs
  rw [show newBinaryInstruction .Mul .u32 = some Opcode.Mul from rfl] at hu
  exact hsu ((Option.some.inj hs).symm.trans (Option.some.inj hu))

/-- C4 amended: `add`/`and`/`or`/`shl`/`sub`/`xor` lower 1:1 to the
corresponding VIR opcodes; `div` and `rem` are disambiguated by operand
type into distinct float/signed/unsigned variants; `mul` is disambiguated
only into a float variant (`Fmul`) and a single integer variant (`Mul`)
shared by signed and unsigned types. -/
theorem c4_amended (t : PTXDataType) (ht : t ∈ claimTypes) :
    newBinaryInstruction .Add t = some .Add ∧
    newBinaryInstruction .And t = some .And ∧
    newBinaryInstruction .Or  t = some .Or ∧
    newBinaryInstruction .Shl t = some .Shl ∧
    newBinaryInstruction .Sub t = some .Sub ∧
    newBinaryInstruction .Xor t = some .Xor ∧
    disambiguatedByType .Div ∧
    disambiguatedByType .Rem ∧
    (t.isFloat = true → newBinaryInstruction .Mul t = some .Fmul) ∧
    (t.isFloat = false → newBinaryInstruction .Mul t = some .Mul) := by
  refine ⟨rfl, rfl, rfl, rfl, rfl, rfl, ?_, ?_, ?_, ?_⟩
  · exact ⟨.Fdiv, .Sdiv, .Udiv, by decide, by decide, by decide, by decide⟩
  · exact ⟨.Frem, .Srem, .Urem, by decide, by decide, by decide, by decide⟩
  · revert ht
    revert t
    decide
  · revert ht
    revert t
    decide

/-- Witness for C4 (amended) at the concrete type `u32`. -/
theorem c4_amended_witness :
    newBinaryInstruction .Sub PTXDataType.u32 = some .Sub ∧
    newBinaryInstruction .Mul PTXDataType.u32 = some .Mul := by
  have h := c4_amended .u32 (by decide)
  exact ⟨h.2.2.2.2.1, h.2.2.2.2.2.2.2.2.2 (by decide)⟩

/-! ## Claim C5: the no-match failure mode -/

/-- C5: the claim says every instruction with no lowering rule reaches
the fatal "unimplemented instruction" assertion.  Evaluating the
dispatch shows otherwise: `not` (and `st`) are accepted by the
recognizers, their factories return the null pointer, and the dispatcher
dereferences it — a crash, not the assertion.  Opcodes the recognizers
reject (for example `exit`) do reach the assertion. -/
theorem c5_null_factory_deref :
    translateInstruction ⟨.Not, .b32, .Modifier_invalid, .b32, .b32⟩ =
      .nullDeref ∧
    translateInstruction ⟨.St, .f32, .Modifier_invalid, .f32, .f32⟩ =
      .nullDeref ∧
    translateInstruction ⟨.Exit, .b32, .Modifier_invalid, .b32, .b32⟩ =
      .unimplementedAssert ∧
    (∀ o : Opcode,
      translateInstruction ⟨.Not, .b32, .Modifier_invalid, .b32, .b32⟩ ≠
        .translated o) := by
  exact ⟨rfl, rfl, rfl, by decide⟩

/-! ## Kernel translation (`_translateKernel`, `_translateBasicBlock`) -/

/-- A source basic block as consumed from the kernel's control-flow
graph: its identity (for the entry/exit comparison), its label, and its
ordered instruction list. -/
structure PTXBlock where
  bid : Nat
  label : String
  instructions : List PTXInstrS
deriving DecidableEq, Repr

/-- The executable sequence of a source kernel's control-flow graph,
together with the identities of the synthetic entry and exit blocks. -/
structure PTXKernelCFG where
  sequence : List PTXBlock
  entryId : Nat
  exitId : Nat
deriving DecidableEq, Repr

/-- A translated target basic block: produced by `_translateBasicBlock`,
which creates a new block with the source label (inserted before the
function's exit block, hence appended to the body) and lowers the source
instructions in order into it. -/
structure TgtBlock where
  label : String
  lowered : List LowerResult
deriving DecidableEq, Repr

/-- `_translateBasicBlock`: create the target block with the source
block's label and translate each of its instructions in order. -/
def translateBasicBlock (b : PTXBlock) : TgtBlock :=
  ⟨b.label, b.instructions.map translateInstruction⟩

/-- The body of one of `_translateKernel`'s two block loops: walk the
executable sequence, skip the entry and exit blocks, and call
`_translateBasicBlock` on every other block in order. -/
def translateBlockPass (k : PTXKernelCFG) : List TgtBlock :=
  (k.sequence.filter
    (fun b => !(b.bid = k.entryId) && !(b.bid = k.exitId))).map
    translateBasicBlock

/-- `_translateKernel`'s block translation: the function runs two
textually identical loops over the executable sequence — the first under
the comment "Keep a record of blocks", the second under "Translate
blocks" — and each loop calls `_translateBasicBlock` on every
non-entry, non-exit block, so the target function receives both passes'
blocks in order. -/
def translateKernelBlocks (k : PTXKernelCFG) : List TgtBlock :=
  translateBlockPass k ++ translateBlockPass k

/-! ## Claim C2: one target block per source block -/

/-- C2: the claim says the translator creates exactly one target block
per executable source block and lowers each source block's instructions
exactly once.  Evaluating the code on a kernel with a single executable
block shows it creates two identical target blocks — each source
instruction is lowered twice. -/
theorem c2_blocks_translated_twice :
    (translateKernelBlocks
      ⟨[⟨0, "entry", []⟩,
        ⟨1, "BB_1", [⟨.Add, .s32, .Modifier_invalid, .s32, .s32⟩]⟩,
        ⟨2, "exit", []⟩], 0, 2⟩ =
      [⟨"BB_1", [.translated .Add]⟩, ⟨"BB_1", [.translated .Add]⟩]) ∧
    (translateKernelBlocks
      ⟨[⟨0, "entry", []⟩,
        ⟨1, "BB_1", [⟨.Add, .s32, .Modifier_invalid, .s32, .s32⟩]⟩,
        ⟨2, "exit", []⟩], 0, 2⟩).length = 2 := by
  constructor <;> rfl

/-! ## Register declaration (`_translateRegisterValue`, `_getRegister`) -/

/-- `translateTypeName`: the fixed PTX-type to VIR-type-name table. -/
def translateTypeName : PTXDataType → String
  | .b8 => "i8" | .s8 => "i8" | .u8 => "i8"
  | .s16 => "i16" | .u16 => "i16" | .b16 => "i16"
  | .s32 => "i32" | .b32 => "i32" | .u32 => "i32"
  | .s64 => "i64" | .b64 => "i64" | .u64 => "i64"
  | .f32 => "f32"
  | .f64 => "f64"
  | .pred => "i1"

/-- A VIR virtual register: its function-unique id, its type name and
its name. -/
structure VirtualRegister where
  id : Nat
  typeName : String
  name : String
deriving DecidableEq, Repr

/-- The per-kernel register symbol table `_registers` plus the target
function's register counter (`Function::newVirtualRegister` assigns
monotonically increasing ids). -/
structure KernelRegState where
  registers : List (Nat × VirtualRegister)
  nextId : Nat
deriving DecidableEq, Repr

/-- The name built for PTX register id `reg`: `"r" << reg`. -/
def ptxRegisterName (reg : Nat) : String := "r" ++ toString reg

/-- `_translateRegisterValue`: if the source register id is already in
`_registers`, throw the duplicate-declaration error carrying the register
name; otherwise create a fresh virtual register with the translated type
and that name, and record it. -/
def translateRegisterValue (st : KernelRegState) (reg : Nat)
    (ty : PTXDataType) : Except String KernelRegState :=
  if (st.registers.lookup reg).isSome then
    .error ("Added duplicate virtual register '" ++ ptxRegisterName reg ++ "'")
  else
    .ok ⟨(reg, ⟨st.nextId, translateTypeName ty, ptxRegisterName reg⟩) ::
      st.registers, st.nextId + 1⟩

/-- `_getRegister`: look the source register id up in `_registers`;
if absent, throw the undeclared-register error carrying the register
name. -/
def getRegister (st : KernelRegState) (reg : Nat) :
    Except String VirtualRegister :=
  match st.registers.lookup reg with
  | some r => .ok r
  | none =>
      .error ("PTX register " ++ ptxRegisterName reg ++
        " used without declaration.")

/-! ## Claim C9: duplicate and undeclared register errors -/

/-- C9: declaring a fresh source register succeeds; declaring the same
source register id a second time fails with the fatal
duplicate-declaration error naming the register; looking up a register
id that was never declared fails with the fatal undeclared-register
error naming the register. -/
theorem c9_register_errors (st : KernelRegState) (reg : Nat)
    (ty ty' : PTXDataType) (h : st.registers.lookup reg = none) :
    (∃ st', translateRegisterValue st reg ty = .ok st' ∧
      translateRegisterValue st' reg ty' =
        .error ("Added duplicate virtual register '" ++
          ptxRegisterName reg ++ "'")) ∧
    getRegister st reg =
      .error ("PTX register " ++ ptxRegisterName reg ++
        " used without declaration.") := by
  constructor
  · refine ⟨⟨(reg, ⟨st.nextId, translateTypeName ty, ptxRegisterName reg⟩) ::
      st.registers, st.nextId + 1⟩, ?_, ?_⟩
    · simp [translateRegisterValue, h]
    · simp [translateRegisterValue, h, List.lookup]
  · simp [getRegister, h]

/-- Witness for C9: register id `1` in the empty symbol table. -/
theorem c9_register_errors_witness :
    (∃ st', translateRegisterValue ⟨[], 0⟩ 1 .s32 = .ok st' ∧
      translateRegisterValue st' 1 .u32 =
        .error ("Added duplicate virtual register '" ++
          ptxRegisterName 1 ++ "'")) ∧
    getRegister ⟨[], 0⟩ 1 =
      .error ("PTX register " ++ ptxRegisterName 1 ++
        " used without declaration.") :=
  c9_register_errors ⟨[], 0⟩ 1 .s32 .u32 rfl

/-! ## Special registers (`_getSpecialVirtualRegister`)

The special-register and lane identifiers come from the consumed Ocelot
`PTXOperand` interface (not part of this repository's sources): the
`SpecialRegister` enumeration (here by numeric id, with names from its
`toString`), the `Vec` constant `v1 = 1`, and the `VectorIndex` lanes
`0..4` rendered as `""`,`"x"`,`"y"`,`"z"`,`"w"` by `toString`.  The
claims settled below do not depend on the exact enum numbering, only on
there being at least three lane values. -/

/-- Ocelot `PTXOperand::tid`. -/
def tidId : Nat := 0
/-- Ocelot `PTXOperand::ntid`. -/
def ntidId : Nat := 1
/-- Ocelot `PTXOperand::laneId` (an inherently scalar special). -/
def laneIdId : Nat := 2
/-- Ocelot `PTXOperand::ctaId`. -/
def ctaIdId : Nat := 5
/-- Ocelot `PTXOperand::nctaId`. -/
def nctaIdId : Nat := 6
/-- Ocelot `PTXOperand::smId`. -/
def smIdId : Nat := 7
/-- Ocelot `PTXOperand::nsmId`. -/
def nsmIdId : Nat := 8
/-- Ocelot `PTXOperand::gridId`. -/
def gridIdId : Nat := 9
/-- Ocelot `PTXOperand::v1` (the width-one constant of the `Vec`
enumeration, numerically `1`). -/
def v1 : Nat := 1

/-- Ocelot `PTXOperand::toString(SpecialRegister)`: the canonical name
of a special register id. -/
def specialToString (id : Nat) : String :=
  if id = tidId then "tid"
  else if id = ntidId then "ntid"
  else if id = laneIdId then "laneid"
  else if id = ctaIdId then "ctaid"
  else if id = nctaIdId then "nctaid"
  else if id = smIdId then "smid"
  else if id = nsmIdId then "nsmid"
  else if id = gridIdId then "gridid"
  else "special_invalid"

/-- Ocelot `PTXOperand::toString(VectorIndex)`: the lane suffix name. -/
def laneToString (lane : Nat) : String :=
  if lane = 1 then "x"
  else if lane = 2 then "y"
  else if lane = 3 then "z"
  else if lane = 4 then "w"
  else ""

/-- The `isScalar` switch of `_getSpecialVirtualRegister`: `false` for
`tid`, `ntid`, `ctaId`, `nctaId`, `smId`, `nsmId` and `gridId`, `true`
for every other special. -/
def specialIsScalar (id : Nat) : Bool :=
  !(id = tidId || id = ntidId || id = ctaIdId || id = nctaIdId ||
    id = smIdId || id = nsmIdId || id = gridIdId)

/-- The name chosen for the memoized special register: the bare special
name when `vectorIndex != PTXOperand::v1 || isScalar`, otherwise the
special name with the lane suffix appended after an underscore. -/
def specialName (id lane : Nat) : String :=
  if !(lane = v1) || specialIsScalar id then
    specialToString id
  else
    specialToString id ++ "_" ++ laneToString lane

/-- The combined cache key: `(id << 4) | vectorIndex`. -/
def specialHash (id lane : Nat) : Nat := (id <<< 4) ||| lane

/-- The `_specialRegisters` cache together with the enclosing function's
register list state (`Function::newVirtualRegister` appends a register
with the next id). -/
structure SpecialRegState where
  cache : List (Nat × VirtualRegister)
  nextId : Nat
  regs : List VirtualRegister
deriving DecidableEq, Repr

/-- `_getSpecialVirtualRegister`: look the combined hash up in the
cache; on a miss, build the name, create a fresh `i32` virtual register
with it, record it in the cache and return it; on a hit return the
memoized register unchanged. -/
def getSpecialVirtualRegister (st : SpecialRegState) (id lane : Nat) :
    VirtualRegister × SpecialRegState :=
  let hash := specialHash id lane
  match st.cache.lookup hash with
  | some r => (r, st)
  | none =>
      let r : VirtualRegister := ⟨st.nextId, "i32", specialName id lane⟩
      (r, ⟨(hash, r) :: st.cache, st.nextId + 1, st.regs ++ [r]⟩)

/-- Lanes below 16 occupy the low 4 bits of the combined hash, so for a
fixed special id the hash is injective in the lane. -/
theorem specialHash_lane_inj {id l1 l2 : Nat} (h1 : l1 < 16) (h2 : l2 < 16)
    (h : specialHash id l1 = specialHash id l2) : l1 = l2 := by
  apply Nat.eq_of_testBit_eq
  intro i
  rcases lt_or_ge i 4 with hi | hi
  · have e := congrArg (fun n => Nat.testBit n i) h
    simp only [specialHash, Nat.testBit_lor, Nat.testBit_shiftLeft] at e
    have h4 : ¬ (4 ≤ i) := by omega
    simpa [h4] using e
  · have hp : (16 : Nat) ≤ 2 ^ i := by
      calc (16 : Nat) = 2 ^ 4 := by norm_num
      _ ≤ 2 ^ i := Nat.pow_le_pow_right (by norm_num) hi
    rw [Nat.testBit_lt_two_pow (lt_of_lt_of_le h1 hp),
      Nat.testBit_lt_two_pow (lt_of_lt_of_le h2 hp)]

/-! ## Claim C6: special-register memoization and naming -/

/-- C6 counterexample: from a fresh per-kernel state, requesting lanes
`2` and `3` (PTX lanes `y` and `z`) of the vector special `tid` creates
two distinct virtual registers whose names are **equal** (both get the
bare name `"tid"`): the code appends the lane suffix only when the lane
equals `v1 = 1`, so the suffix is also omitted for nonzero lanes other
than `1`, refuting both the distinct-names part of the claim and the
"suffix omitted exactly for scalar specials or lane zero" part. -/
theorem c6_counterexample :
    (getSpecialVirtualRegister ⟨[], 0, []⟩ tidId 2).1.id ≠
      (getSpecialVirtualRegister
        (getSpecialVirtualRegister ⟨[], 0, []⟩ tidId 2).2 tidId 3).1.id ∧
    (getSpecialVirtualRegister ⟨[], 0, []⟩ tidId 2).1.name =
      (getSpecialVirtualRegister
        (getSpecialVirtualRegister ⟨[], 0, []⟩ tidId 2).2 tidId 3).1.name ∧
    specialIsScalar tidId = false ∧ (2 : Nat) ≠ 0 ∧ (3 : Nat) ≠ 0 ∧
    specialName tidId 2 = "tid" ∧ specialName tidId 3 = "tid" := by
  decide

/-- C6 amended: within one kernel translation, two lowering requests for
the same (special-id, lane) pair return the identical memoized virtual
register with no second creation; distinct lanes (below 16, as all
Ocelot lanes are) of the same special yield registers with distinct ids;
and the lane suffix is appended to the register name exactly for
non-scalar specials whose lane equals `v1 = 1`, so names of distinct
lanes may coincide. -/
theorem c6_amended (st : SpecialRegState) (id lane l1 l2 n : Nat)
    (h1 : l1 < 16) (h2 : l2 < 16) (hne : l1 ≠ l2) :
    ((getSpecialVirtualRegister
        (getSpecialVirtualRegister st id lane).2 id lane).1 =
      (getSpecialVirtualRegister st id lane).1 ∧
     (getSpecialVirtualRegister
        (getSpecialVirtualRegister st id lane).2 id lane).2 =
      (getSpecialVirtualRegister st id lane).2) ∧
    (getSpecialVirtualRegister ⟨[], n, []⟩ id l1).1.id ≠
      (getSpecialVirtualRegister
        (getSpecialVirtualRegister ⟨[], n, []⟩ id l1).2 id l2).1.id ∧
    specialName id lane =
      specialToString id ++
        (if lane = v1 ∧ specialIsScalar id = false then
          "_" ++ laneToString lane
         else "") := by
  refine ⟨?_, ?_, ?_⟩
  · cases hc : st.cache.lookup (specialHash id lane) with
    | some r => simp [getSpecialVirtualRegister, hc]
    | none => simp [getSpecialVirtualRegister, hc, List.lookup]
  · have hh : specialHash id l2 ≠ specialHash id l1 := fun h =>
      hne (specialHash_lane_inj h2 h1 h).symm
    have hb : (specialHash id l2 == specialHash id l1) = false :=
      beq_eq_false_iff_ne.mpr hh
    simp [getSpecialVirtualRegister, List.lookup, hb]
  · by_cases hl : lane = v1 <;> by_cases hs : specialIsScalar id <;>
      simp [specialName, hl, hs, String.append_assoc]

/-- Witness for C6 (amended) at the `tid` special, lane `1`, with
distinct lanes `2` and `3` and register counter `5`. -/
theorem c6_amended_witness :
    ((getSpecialVirtualRegister
        (getSpecialVirtualRegister ⟨[], 0, []⟩ tidId 1).2 tidId 1).1 =
      (getSpecialVirtualRegister ⟨[], 0, []⟩ tidId 1).1 ∧
     (getSpecialVirtualRegister
        (getSpecialVirtualRegister ⟨[], 0, []⟩ tidId 1).2 tidId 1).2 =
      (getSpecialVirtualRegister ⟨[], 0, []⟩ tidId 1).2) ∧
    (getSpecialVirtualRegister ⟨[], 5, []⟩ tidId 2).1.id ≠
      (getSpecialVirtualRegister
        (getSpecialVirtualRegister ⟨[], 5, []⟩ tidId 2).2 tidId 3).1.id ∧
    specialName tidId 1 =
      specialToString tidId ++
        (if (1 : Nat) = v1 ∧ specialIsScalar tidId = false then
          "_" ++ laneToString 1
         else "") :=
  c6_amended ⟨[], 0, []⟩ tidId 1 2 3 5 (by decide) (by decide) (by decide)

/-! ## The Phi and Psi join instructions (`Instruction.cpp`)

Operands are modelled by their identities (numbers); the option layer
represents the null pointer.  A `Phi` holds the base instruction's
parallel `reads` (slot 0 the guard) and `writes` lists plus the
`sources` and `blocks` metadata arrays; a `Psi` holds `sources` and
`predicates`. -/

/-- The state of a `Phi` instruction: the inherited operand lists and
the parallel `sources`/`blocks` arrays. -/
structure PhiState where
  reads : List (Option Nat)
  writes : List (Option Nat)
  sources : List (Option Nat)
  blocks : List Nat
deriving DecidableEq, Repr

/-- `Phi::Phi(BasicBlock*)`: the base `Instruction` constructor pushes
the (null) guard into `reads`; the `Phi` constructor pushes the null
`d` into `writes`; `sources` and `blocks` start empty. -/
def phiNew : PhiState := ⟨[none], [none], [], []⟩

/-- `Phi::addSource`: append the register operand to `reads` and
`sources` and the predecessor block to `blocks`, in lock-step. -/
def phiAddSource (p : PhiState) (source : Nat) (predecessor : Nat) :
    PhiState :=
  ⟨p.reads ++ [some source], p.writes, p.sources ++ [some source],
    p.blocks ++ [predecessor]⟩

/-- `Phi::removeSource`: scan `blocks` for the first entry equal to the
predecessor and erase the matching index from `blocks`, `sources`, and
(offset by one, past the guard) `reads`; no match is a no-op. -/
def phiRemoveSource (p : PhiState) (predecessor : Nat) : PhiState :=
  match p.blocks.findIdx? (fun b => b = predecessor) with
  | none => p
  | some i =>
      ⟨p.reads.eraseIdx (i + 1), p.writes, p.sources.eraseIdx i,
        p.blocks.eraseIdx i⟩

/-- `Phi::Phi(const Phi&)` (also `operator=` and hence `clone`): the
base copy deep-clones `reads` and `writes`; the `Phi` copy then pushes
**every** read — including the guard in slot 0 — into `sources`, and
copies `blocks`. -/
def phiCopy (p : PhiState) : PhiState :=
  ⟨p.reads, p.writes, p.reads, p.blocks⟩

/-- The state of a `Psi` instruction: operand lists plus the parallel
`sources`/`predicates` arrays. -/
structure PsiState where
  reads : List (Option Nat)
  writes : List (Option Nat)
  sources : List (Option Nat)
  predicates : List Nat
deriving DecidableEq, Repr

/-- `Psi::Psi(BasicBlock*)`. -/
def psiNew : PsiState := ⟨[none], [none], [], []⟩

/-- `Psi::addSource(predicate, source)`: append the register operand to
`reads` and `sources` and the selecting predicate to `predicates`. -/
def psiAddSource (p : PsiState) (predicate : Nat) (source : Nat) :
    PsiState :=
  ⟨p.reads ++ [some source], p.writes, p.sources ++ [some source],
    p.predicates ++ [predicate]⟩

/-- `Psi::removeSource(predicate)`: erase the first matching predicate's
index from all three parallel collections; no match is a no-op. -/
def psiRemoveSource (p : PsiState) (predicate : Nat) : PsiState :=
  match p.predicates.findIdx? (fun q => q = predicate) with
  | none => p
  | some i =>
      ⟨p.reads.eraseIdx (i + 1), p.writes, p.sources.eraseIdx i,
        p.predicates.eraseIdx i⟩

/-- `Psi::Psi(const Psi&)`: like `Phi`'s copy, pushes every read —
including the guard slot — into `sources`. -/
def psiCopy (p : PsiState) : PsiState :=
  ⟨p.reads, p.writes, p.reads, p.predicates⟩

/-- The Phi parity invariant `reads.size() - 1 == sources.size() ==
blocks.size()`. -/
def phiParity (p : PhiState) : Prop :=
  p.reads.length - 1 = p.sources.length ∧
  p.sources.length = p.blocks.length

/-- The Psi parity invariant `reads.size() - 1 == sources.size() ==
predicates.size()`. -/
def psiParity (p : PsiState) : Prop :=
  p.reads.length - 1 = p.sources.length ∧
  p.sources.length = p.predicates.length

/-! ## Claim C3: the Phi/Psi parity invariant -/

/-- C3: construction, `addSource` and `removeSource` preserve the
parity invariant, but the copy constructor (hence copy assignment and
`clone`) breaks it: copying a one-source Phi (or Psi) yields
`sources.size() = 2` against `reads.size() - 1 = 1 = blocks.size()`,
because the copy loop pushes the guard read into `sources` too. -/
theorem c3_phi_psi_copy_breaks_parity :
    phiParity phiNew ∧
    phiParity (phiAddSource phiNew 1 10) ∧
    phiParity (phiRemoveSource (phiAddSource phiNew 1 10) 10) ∧
    ¬ phiParity (phiCopy (phiAddSource phiNew 1 10)) ∧
    (phiCopy (phiAddSource phiNew 1 10)).sources.length = 2 ∧
    (phiCopy (phiAddSource phiNew 1 10)).reads.length - 1 = 1 ∧
    (phiCopy (phiAddSource phiNew 1 10)).blocks.length = 1 ∧
    psiParity psiNew ∧
    psiParity (psiAddSource psiNew 7 1) ∧
    psiParity (psiRemoveSource (psiAddSource psiNew 7 1) 7) ∧
    ¬ psiParity (psiCopy (psiAddSource psiNew 7 1)) := by
  refine ⟨⟨rfl, rfl⟩, ⟨rfl, rfl⟩, ⟨rfl, rfl⟩, ?_, rfl, rfl, rfl,
    ⟨rfl, rfl⟩, ⟨rfl, rfl⟩, ⟨rfl, rfl⟩, ?_⟩
  · intro h
    exact absurd h.1 (by decide)
  · intro h
    exact absurd h.1 (by decide)

/-! ## Claim C7: addSource then removeSource -/

/-- Erasing the index just past a list restores the list. -/
theorem eraseIdx_concat {α : Type} (l : List α) (a : α) :
    (l ++ [a]).eraseIdx l.length = l := by
  induction l with
  | nil => rfl
  | cons x xs ih => simp [List.eraseIdx, ih]

/-- If `a` does not occur in `l`, the first match of `a` in `l ++ [a]`
is the appended element. -/
theorem findIdx?_concat_self (l : List Nat) (a : Nat) (h : a ∉ l) :
    (l ++ [a]).findIdx? (fun b => b = a) = some l.length := by
  induction l with
  | nil => simp [List.findIdx?_cons]
  | cons x xs ih =>
      have hx : ¬ (x = a) := fun e => h (e ▸ List.mem_cons_self x xs)
      have hxs : a ∉ xs := fun e => h (List.mem_cons_of_mem x e)
      simp [List.findIdx?_cons, hx, ih hxs]

/-- C7 counterexample: when the predecessor block already occurs among
the Phi's blocks, `removeSource` removes the **first** matching entry,
not the freshly added one, so add-then-remove does not restore the prior
state: starting from a Phi whose single source pairs operand `1` with
block `10`, adding operand `2` for block `10` and removing block `10`
leaves the Phi holding operand `2`, not operand `1`. -/
theorem c7_counterexample :
    phiRemoveSource (phiAddSource (phiAddSource phiNew 1 10) 2 10) 10 ≠
      phiAddSource phiNew 1 10 ∧
    psiRemoveSource (psiAddSource (psiAddSource psiNew 10 1) 10 2) 10 ≠
      psiAddSource psiNew 10 1 := by
  constructor
  · intro h
    have := congrArg PhiState.sources h
    exact absurd this (by decide)
  · intro h
    have := congrArg PsiState.sources h
    exact absurd this (by decide)

/-- C7 amended: for a Phi (resp. Psi) whose parallel arrays respect the
parity invariant, adding a source for a predecessor block (resp.
selecting predicate) that does **not** already occur and then removing
that same predecessor (predicate) restores the instruction's prior
state exactly. -/
theorem c7_add_remove_restores (p : PhiState) (q : PsiState)
    (src pred psrc ppred : Nat)
    (hp : pred ∉ p.blocks)
    (hpr : p.reads.length = p.blocks.length + 1)
    (hps : p.sources.length = p.blocks.length)
    (hq : ppred ∉ q.predicates)
    (hqr : q.reads.length = q.predicates.length + 1)
    (hqs : q.sources.length = q.predicates.length) :
    phiRemoveSource (phiAddSource p src pred) pred = p ∧
    psiRemoveSource (psiAddSource q ppred psrc) ppred = q := by
  constructor
  · show phiRemoveSource ⟨p.reads ++ [some src], p.writes,
      p.sources ++ [some src], p.blocks ++ [pred]⟩ pred = p
    rw [phiRemoveSource]
    simp only [findIdx?_concat_self p.blocks pred hp]
    have e1 : (p.reads ++ [some src]).eraseIdx (p.blocks.length + 1) =
        p.reads := by
      rw [← hpr]; exact eraseIdx_concat p.reads (some src)
    have e2 : (p.sources ++ [some src]).eraseIdx p.blocks.length =
        p.sources := by
      rw [← hps]; exact eraseIdx_concat p.sources (some src)
    have e3 : (p.blocks ++ [pred]).eraseIdx p.blocks.length = p.blocks :=
      eraseIdx_concat p.blocks pred
    simp [e1, e2, e3]
  · show psiRemoveSource ⟨q.reads ++ [some psrc], q.writes,
      q.sources ++ [some psrc], q.predicates ++ [ppred]⟩ ppred = q
    rw [psiRemoveSource]
    simp only [findIdx?_concat_self q.predicates ppred hq]
    have e1 : (q.reads ++ [some psrc]).eraseIdx (q.predicates.length + 1) =
        q.reads := by
      rw [← hqr]; exact eraseIdx_concat q.reads (some psrc)
    have e2 : (q.sources ++ [some psrc]).eraseIdx q.predicates.length =
        q.sources := by
      rw [← hqs]; exact eraseIdx_concat q.sources (some psrc)
    have e3 : (q.predicates ++ [ppred]).eraseIdx q.predicates.length =
        q.predicates :=
      eraseIdx_concat q.predicates ppred
    simp [e1, e2, e3]

/-- Witness for C7 (amended): a one-source Phi and Psi, adding and
removing a fresh predecessor/predicate. -/
theorem c7_add_remove_restores_witness :
    phiRemoveSource
        (phiAddSource (phiAddSource phiNew 1 10) 2 11) 11 =
      phiAddSource phiNew 1 10 ∧
    psiRemoveSource
        (psiAddSource (psiAddSource psiNew 10 1) 11 2) 11 =
      psiAddSource psiNew 10 1 :=
  c7_add_remove_restores (phiAddSource phiNew 1 10)
    (psiAddSource psiNew 10 1) 2 11 2 11
    (by decide) (by decide) (by decide) (by decide) (by decide) (by decide)

/-! ## The base instruction's guard slot (`Instruction`)

The guard field and the reserved read slot 0, modelled over operand
identities; `none` is the null pointer. -/

/-- The base `Instruction` state relevant to the guard: the `guard`
field and the `reads`/`writes` lists. -/
structure InstrState where
  guard : Option Nat
  reads : List (Option Nat)
  writes : List (Option Nat)
deriving DecidableEq, Repr

/-- `Instruction::Instruction(Opcode, BasicBlock*, Id)`: the guard field
is initialized to `nullptr` and pushed into `reads` as slot 0. -/
def instrNew : InstrState := ⟨none, [none], []⟩

/-- `Instruction::setGuard`: frees the previous guard, then stores the
new operand in both `reads[0]` and the `guard` field. -/
def instrSetGuard (i : InstrState) (p : Option Nat) : InstrState :=
  ⟨p, i.reads.set 0 p, i.writes⟩

/-- A subclass constructor pushing a fresh read slot (e.g.
`UnaryInstruction`'s `reads.push_back(a)`). -/
def instrPushRead (i : InstrState) (o : Option Nat) : InstrState :=
  ⟨i.guard, i.reads ++ [o], i.writes⟩

/-- A subclass constructor pushing a fresh write slot. -/
def instrPushWrite (i : InstrState) (o : Option Nat) : InstrState :=
  ⟨i.guard, i.reads, i.writes ++ [o]⟩

/-- A fixed-slot mutator (`setA`/`setB`/`setTarget` and the like):
replaces a read slot other than the guard slot. -/
def instrSetRead (i : InstrState) (n : Nat) (o : Option Nat) : InstrState :=
  ⟨i.guard, i.reads.set n o, i.writes⟩

/-- `Instruction::Instruction(const Instruction&)` (and `operator=`):
clones both operand lists in order and re-derives the guard field from
the freshly cloned `reads[0]`. -/
def instrCopy (i : InstrState) : InstrState :=
  ⟨i.reads.getD 0 none, i.reads, i.writes⟩

/-- The states an instruction can be in during its lifetime: built by
the base constructor and transformed by subclass constructors, slot
mutators, `setGuard` and copying. -/
inductive InstrReach : InstrState → Prop
  | new : InstrReach instrNew
  | pushRead (i : InstrState) (o : Option Nat) :
      InstrReach i → InstrReach (instrPushRead i o)
  | pushWrite (i : InstrState) (o : Option Nat) :
      InstrReach i → InstrReach (instrPushWrite i o)
  | setGuard (i : InstrState) (p : Option Nat) :
      InstrReach i → InstrReach (instrSetGuard i p)
  | setRead (i : InstrState) (n : Nat) (o : Option Nat) :
      1 ≤ n → InstrReach i → InstrReach (instrSetRead i n o)
  | copy (i : InstrState) : InstrReach i → InstrReach (instrCopy i)

/-! ## Claim C10: the guard slot -/

/-- C10 counterexample: the claim that read slot 0 is never absent
(non-null) from construction onwards is false — the base constructor
initializes the guard to the null pointer and pushes that null into
slot 0, so a freshly constructed instruction has `guard = none` in
read slot 0. -/
theorem c10_counterexample :
    ¬ (∀ i : InstrState, InstrReach i → i.guard.isSome = true) := by
  intro h
  exact absurd (h instrNew InstrReach.new) (by decide)

/-- C10 amended: at every point in an instruction's lifetime, read
slot 0 exists and aliases the guard field; the guard is the null
pointer immediately after construction, and after `setGuard` with
operand `p` both the guard field and slot 0 hold exactly `p` (hence
non-null whenever a non-null guard is installed). -/
theorem c10_guard_aliases_slot0 (i : InstrState) (h : InstrReach i) :
    (∃ rest, i.reads = i.guard :: rest) ∧
    instrNew.guard = none ∧
    (∀ p, (instrSetGuard i p).guard = p ∧
      ∃ rest, (instrSetGuard i p).reads = p :: rest) := by
  have key : ∀ j : InstrState, InstrReach j → ∃ rest, j.reads = j.guard :: rest := by
    intro j hj
    induction hj with
    | new => exact ⟨[], rfl⟩
    | pushRead k o _ ih =>
        obtain ⟨rest, hr⟩ := ih
        exact ⟨rest ++ [o], by simp [instrPushRead, hr]⟩
    | pushWrite k o _ ih =>
        obtain ⟨rest, hr⟩ := ih
        exact ⟨rest, by simp [instrPushWrite, hr]⟩
    | setGuard k p _ ih =>
        obtain ⟨rest, hr⟩ := ih
        exact ⟨rest, by simp [instrSetGuard, hr]⟩
    | setRead k n o hn _ ih =>
        obtain ⟨rest, hr⟩ := ih
        obtain ⟨m, rfl⟩ := Nat.exists_eq_add_of_le hn
        exact ⟨rest.set m o, by simp [instrSetRead, hr, Nat.add_comm]⟩
    | copy k _ ih =>
        obtain ⟨rest, hr⟩ := ih
        exact ⟨rest, by simp [instrCopy, hr]⟩
  refine ⟨key i h, rfl, fun p => ⟨rfl, ?_⟩⟩
  obtain ⟨rest, hr⟩ := key i h
  exact ⟨rest, by simp [instrSetGuard, hr]⟩

/-- Witness for C10 (amended) at a freshly constructed instruction. -/
theorem c10_guard_aliases_slot0_witness :
    (∃ rest, instrNew.reads = instrNew.guard :: rest) ∧
    instrNew.guard = none ∧
    (∀ p, (instrSetGuard instrNew p).guard = p ∧
      ∃ rest, (instrSetGuard instrNew p).reads = p :: rest) :=
  c10_guard_aliases_slot0 instrNew InstrReach.new

/-! ## Operands on a heap, cloning and rendering (`Instruction.cpp`)

To express deep-cloning and aliasing, operands live on an explicit heap
of numbered cells; an instruction's slots hold cell addresses (`none`
is the null pointer).  `Instruction::Instruction(const Instruction&)`
clones every read and write operand in order into fresh cells and
re-derives the guard from the cloned `reads[0]`. -/

/-- The VIR predicate modifiers (`PredicateOperand::PredicateModifier`). -/
inductive PredicateModifier
  | StraightPredicate | InversePredicate | PredicateTrue | PredicateFalse
deriving DecidableEq, Repr

/-- The operand variants of the VIR operand model (Operand.h): register,
predicate, immediate, indirect, address and argument. -/
inductive OperandVal
  | register (reg : Nat)
  | predicate (reg : Option Nat) (m : PredicateModifier)
  | immediate (v : Nat)
  | indirect (reg : Nat) (offset : Int)
  | address (sym : String)
  | argument (sym : String)
deriving DecidableEq, Repr

/-- Modelled from the spec: `Operand.cpp` is not among the sources;
`PredicateOperand::isAlwaysTrue` holds exactly for the compile-time
constant-true predicate state (the guard is omitted from the rendering
when always-true). -/
def OperandVal.isAlwaysTrue : OperandVal → Bool
  | .predicate _ m => m = .PredicateTrue
  | _ => false

/-- A heap of operand cells: an address-to-value store plus the next
fresh address. -/
structure Heap where
  mem : List (Nat × OperandVal)
  next : Nat
deriving DecidableEq, Repr

/-- Read the cell at an address. -/
def Heap.get (h : Heap) (a : Nat) : Option OperandVal := h.mem.lookup a

/-- Overwrite the cell at an address (mutating one operand in place). -/
def Heap.setAt (h : Heap) (a : Nat) (v : OperandVal) : Heap :=
  ⟨(a, v) :: h.mem, h.next⟩

/-- Allocate a fresh cell holding `v` (`new ...Operand(...)`). -/
def Heap.allocV (h : Heap) (v : OperandVal) : Heap :=
  ⟨(h.next, v) :: h.mem, h.next + 1⟩

/-- An instruction whose operand slots are heap addresses: the opcode,
the read and write slot lists and the guard field (aliasing
`reads[0]`). -/
structure HInstr where
  opcode : Opcode
  reads : List (Option Nat)
  writes : List (Option Nat)
  guard : Option Nat
deriving DecidableEq, Repr

/-- The addresses of the cells an instruction owns. -/
def HInstr.addrs (i : HInstr) : List Nat :=
  i.reads.reduceOption ++ i.writes.reduceOption

/-- Clone one operand list in order: each non-null slot's cell is copied
into a freshly allocated cell (`operand->clone()`), null slots stay
null. -/
def cloneOps : Heap → List (Option Nat) → List (Option Nat) × Heap
  | h, [] => ([], h)
  | h, none :: rest =>
      (none :: (cloneOps h rest).1, (cloneOps h rest).2)
  | h, some a :: rest =>
      (some h.next ::
        (cloneOps (h.allocV ((h.get a).getD (.immediate 0))) rest).1,
       (cloneOps (h.allocV ((h.get a).getD (.immediate 0))) rest).2)

/-- `Instruction::Instruction(const Instruction&)`: clone the reads in
order, then the writes in order, and re-derive the guard field from the
freshly cloned `reads[0]`. -/
def cloneInstr (h : Heap) (i : HInstr) : HInstr × Heap :=
  (⟨i.opcode,
    (cloneOps h i.reads).1,
    (cloneOps (cloneOps h i.reads).2 i.writes).1,
    (cloneOps h i.reads).1.getD 0 none⟩,
   (cloneOps (cloneOps h i.reads).2 i.writes).2)

/-- The operand value held by a slot: null slots hold nothing. -/
def slotVal (h : Heap) (o : Option Nat) : Option OperandVal :=
  o.bind h.get

/-- Render one operand slot through the given operand renderer. -/
def renderSlot (opR : OperandVal → String) (h : Heap) (o : Option Nat) :
    String :=
  ((slotVal h o).map opR).getD ""

/-- `Instruction::toString`: `[guard ]opcode writes..., reads...` — the
guard prefix is omitted when the guard is always-true, the writes are
comma-joined, a separating comma appears when both lists contribute, and
the guard slot is excluded from the printed reads. -/
def instrRender (opR : OperandVal → String) (h : Heap) (i : HInstr) :
    String :=
  (match slotVal h i.guard with
   | some g => if g.isAlwaysTrue then "" else opR g ++ " "
   | none => "") ++
  i.opcode.render ++ " " ++
  String.intercalate ", " (i.writes.map (renderSlot opR h)) ++
  (if i.writes ≠ [] ∧ 1 < i.reads.length then ", " else "") ++
  String.intercalate ", " ((i.reads.drop 1).map (renderSlot opR h))

/-- A well-formed operand list against a heap: every non-null slot
points below the allocation frontier at a populated cell. -/
def opsWF (h : Heap) (l : List (Option Nat)) : Prop :=
  ∀ a ∈ l.reduceOption, a < h.next ∧ (h.get a).isSome = true

/-- The combined specification of `cloneOps`: it only allocates (the
frontier grows and old cells keep their values), the cloned slots are
all fresh, the cloned slots hold the same values as the originals, and
lengths are preserved. -/
theorem cloneOps_spec (l : List (Option Nat)) (h : Heap) (hwf : opsWF h l) :
    h.next ≤ (cloneOps h l).2.next ∧
    (∀ a, a < h.next → (cloneOps h l).2.get a = h.get a) ∧
    (∀ a ∈ (cloneOps h l).1.reduceOption,
      h.next ≤ a ∧ a < (cloneOps h l).2.next) ∧
    (cloneOps h l).1.map (slotVal (cloneOps h l).2) =
      l.map (slotVal h) ∧
    (cloneOps h l).1.length = l.length := by
  induction l generalizing h with
  | nil =>
      exact ⟨Nat.le_refl _, fun a _ => rfl, by simp [cloneOps], rfl, rfl⟩
  | cons o rest ih =>
      cases o with
      | none =>
          have hwf' : opsWF h rest := by
            intro a ha
            exact hwf a (by simpa using ha)
          obtain ⟨ih1, ih2, ih3, ih4, ih5⟩ := ih h hwf'
          refine ⟨ih1, ih2, ?_, ?_, by simp [cloneOps, ih5]⟩
          · intro a ha
            exact ih3 a (by simpa [cloneOps] using ha)
          · simp only [cloneOps, List.map_cons]
            exact congrArg _ ih4
      | some a =>
          have ha : a < h.next ∧ (h.get a).isSome = true :=
            hwf a (by simp)
          obtain ⟨v, hv⟩ := Option.isSome_iff_exists.mp ha.2
          have hgetD : (h.get a).getD (.immediate 0) = v := by
            rw [hv]; rfl
          set h1 := h.allocV ((h.get a).getD (.immediate 0)) with hh1
          have h1next : h1.next = h.next + 1 := rfl
          have h1get_lt : ∀ b, b < h.next → h1.get b = h.get b := by
            intro b hb
            have : ¬ (b = h.next) := Nat.ne_of_lt hb
            simp [hh1, Heap.allocV, Heap.get, List.lookup,
              beq_eq_false_iff_ne.mpr this]
          have h1get_self : h1.get h.next =
              some ((h.get a).getD (.immediate 0)) := by
            simp [hh1, Heap.allocV, Heap.get, List.lookup]
          have hmem : ∀ b, b ∈ rest.reduceOption →
              b ∈ (some a :: rest).reduceOption := by
            intro b hb
            simp only [List.reduceOption_cons_of_some, List.mem_cons]
            exact Or.inr hb
          have hwf1 : opsWF h1 rest := by
            intro b hb
            have hb' := hwf b (hmem b hb)
            exact ⟨by omega, by rw [h1get_lt b hb'.1]; exact hb'.2⟩
          obtain ⟨ih1, ih2, ih3, ih4, ih5⟩ := ih h1 hwf1
          have hnext : h.next ≤ (cloneOps h1 rest).2.next := by
            rw [h1next] at ih1; omega
          refine ⟨?_, ?_, ?_, ?_, by simp [cloneOps, ← hh1, ih5]⟩
          · simpa [cloneOps, ← hh1] using hnext
          · intro b hb
            have he : (cloneOps h1 rest).2.get b = h1.get b :=
              ih2 b (by omega)
            simpa [cloneOps, ← hh1, he] using h1get_lt b hb
          · intro b hb
            simp only [cloneOps, ← hh1, List.reduceOption_cons_of_some,
              List.mem_cons] at hb ⊢
            rcases hb with hb | hb
            · subst hb
              exact ⟨Nat.le_refl _, by omega⟩
            · have := ih3 b hb
              exact ⟨by omega, this.2⟩
          · simp only [cloneOps, ← hh1, List.map_cons]
            have hhead : slotVal (cloneOps h1 rest).2 (some h.next) =
                slotVal h (some a) := by
              have he : (cloneOps h1 rest).2.get h.next = h1.get h.next :=
                ih2 h.next (by omega)
              simp [slotVal, he, h1get_self, hgetD, hv]
            have htail : (cloneOps h1 rest).1.map
                (slotVal (cloneOps h1 rest).2) =
                rest.map (slotVal h) := by
              rw [ih4]
              apply List.map_congr_left
              intro o ho
              cases o with
              | none => rfl
              | some b =>
                  have hb : b ∈ rest.reduceOption :=
                    List.reduceOption_mem_iff.mpr ho
                  have := hwf b (hmem b hb)
                  simp [slotVal, h1get_lt b this.1]
            rw [hhead, htail]

/-- The value in slot 0 of a list, read through a heap, equals slot 0 of
the value-mapped list. -/
theorem slotVal_getD (h : Heap) (l : List (Option Nat)) :
    slotVal h (l.getD 0 none) = (l.map (slotVal h)).getD 0 none := by
  cases l with
  | nil => rfl
  | cons o t => rfl

/-- Rendering a slot list factors through its heap values. -/
theorem map_renderSlot (opR : OperandVal → String) (h : Heap)
    (l : List (Option Nat)) :
    l.map (renderSlot opR h) =
      (l.map (slotVal h)).map (fun ov => (ov.map opR).getD "") := by
  rw [List.map_map]
  rfl

/-! ## Claim C8: clone fidelity -/

/-- C8: for an instruction whose slots are well-formed against the heap
(each non-null slot points to a populated cell below the allocation
frontier) and whose guard field aliases read slot 0, `clone()` produces
an instruction whose rendering in the post-clone heap equals the
original's rendering, and overwriting any operand cell owned by the
clone leaves every operand cell of the original unchanged — all cloned
cells are fresh. -/
theorem c8_clone_fidelity (opR : OperandVal → String) (h : Heap)
    (i : HInstr) (hr : opsWF h i.reads) (hw : opsWF h i.writes)
    (halias : i.guard = i.reads.getD 0 none) :
    instrRender opR (cloneInstr h i).2 (cloneInstr h i).1 =
      instrRender opR h i ∧
    (∀ a ∈ (cloneInstr h i).1.addrs, ∀ v : OperandVal,
      ∀ b ∈ i.addrs, ((cloneInstr h i).2.setAt a v).get b = h.get b) := by
  obtain ⟨s1next, s1get, s1fresh, s1map, s1len⟩ :=
    cloneOps_spec i.reads h hr
  have hw1 : opsWF (cloneOps h i.reads).2 i.writes := by
    intro b hb
    obtain ⟨hb1, hb2⟩ := hw b hb
    exact ⟨lt_of_lt_of_le hb1 s1next, by rw [s1get b hb1]; exact hb2⟩
  obtain ⟨s2next, s2get, s2fresh, s2map, s2len⟩ :=
    cloneOps_spec i.writes (cloneOps h i.reads).2 hw1
  have hgetFinal : ∀ b, b < h.next →
      (cloneOps (cloneOps h i.reads).2 i.writes).2.get b = h.get b := by
    intro b hb
    rw [s2get b (lt_of_lt_of_le hb s1next), s1get b hb]
  have hreadsMap : (cloneOps h i.reads).1.map
      (slotVal (cloneOps (cloneOps h i.reads).2 i.writes).2) =
      i.reads.map (slotVal h) := by
    rw [← s1map]
    apply List.map_congr_left
    intro o ho
    cases o with
    | none => rfl
    | some b =>
        have hb : b ∈ (cloneOps h i.reads).1.reduceOption :=
          List.reduceOption_mem_iff.mpr ho
        have := s1fresh b hb
        simp [slotVal, s2get b this.2]
  have hwritesMap : (cloneOps (cloneOps h i.reads).2 i.writes).1.map
      (slotVal (cloneOps (cloneOps h i.reads).2 i.writes).2) =
      i.writes.map (slotVal h) := by
    rw [s2map]
    apply List.map_congr_left
    intro o ho
    cases o with
    | none => rfl
    | some b =>
        have hb : b ∈ i.writes.reduceOption :=
          List.reduceOption_mem_iff.mpr ho
        simp [slotVal, s1get b (hw b hb).1]
  constructor
  · show (match slotVal (cloneOps (cloneOps h i.reads).2 i.writes).2
        ((cloneOps h i.reads).1.getD 0 none) with
      | some g => if g.isAlwaysTrue then "" else opR g ++ " "
      | none => "") ++
      i.opcode.render ++ " " ++
      String.intercalate ", "
        ((cloneOps (cloneOps h i.reads).2 i.writes).1.map
          (renderSlot opR (cloneOps (cloneOps h i.reads).2 i.writes).2)) ++
      (if (cloneOps (cloneOps h i.reads).2 i.writes).1 ≠ [] ∧
          1 < (cloneOps h i.reads).1.length then ", " else "") ++
      String.intercalate ", "
        (((cloneOps h i.reads).1.drop 1).map
          (renderSlot opR (cloneOps (cloneOps h i.reads).2 i.writes).2)) =
      instrRender opR h i
    have hguard : slotVal (cloneOps (cloneOps h i.reads).2 i.writes).2
        ((cloneOps h i.reads).1.getD 0 none) = slotVal h i.guard := by
      rw [slotVal_getD, hreadsMap, ← slotVal_getD, halias]
    have hwslist : (cloneOps (cloneOps h i.reads).2 i.writes).1.map
        (renderSlot opR (cloneOps (cloneOps h i.reads).2 i.writes).2) =
        i.writes.map (renderSlot opR h) := by
      rw [map_renderSlot, hwritesMap, ← map_renderSlot]
    have hrdlist : ((cloneOps h i.reads).1.drop 1).map
        (renderSlot opR (cloneOps (cloneOps h i.reads).2 i.writes).2) =
        (i.reads.drop 1).map (renderSlot opR h) := by
      rw [List.map_drop, List.map_drop, map_renderSlot, hreadsMap,
        ← map_renderSlot]
    have hiff : ((cloneOps (cloneOps h i.reads).2 i.writes).1 ≠ [] ∧
        1 < (cloneOps h i.reads).1.length) ↔
        (i.writes ≠ [] ∧ 1 < i.reads.length) := by
      rw [← List.length_pos, ← List.length_pos, s2len, s1len]
    rw [hguard, hwslist, hrdlist,
      show (if (cloneOps (cloneOps h i.reads).2 i.writes).1 ≠ [] ∧
          1 < (cloneOps h i.reads).1.length then ", " else "") =
        (if i.writes ≠ [] ∧ 1 < i.reads.length then ", " else "") from
        if_congr hiff rfl rfl]
    rfl
  · intro a ha v b hb
    have hblt : b < h.next := by
      rcases List.mem_append.mp hb with hb' | hb'
      · exact (hr b hb').1
      · exact (hw b hb').1
    have hage : h.next ≤ a := by
      rcases List.mem_append.mp ha with ha' | ha'
      · exact (s1fresh a ha').1
      · exact le_trans s1next (s2fresh a ha').1
    have hne : ¬ (b = a) := by omega
    show (Heap.setAt (cloneOps (cloneOps h i.reads).2 i.writes).2
        a v).get b = h.get b
    rw [show (Heap.setAt (cloneOps (cloneOps h i.reads).2 i.writes).2
        a v).get b =
      (cloneOps (cloneOps h i.reads).2 i.writes).2.get b by
        simp [Heap.setAt, Heap.get, List.lookup,
          beq_eq_false_iff_ne.mpr hne]]
    exact hgetFinal b hblt

/-- Witness for C8 at a fully populated `Add` instruction (guard in cell
0, sources in cells 1 and 2, destination in cell 3) on a four-cell
heap. -/
theorem c8_clone_fidelity_witness :
    instrRender (fun _ => "o")
        (cloneInstr
          ⟨[(0, .predicate none .PredicateTrue), (1, .register 1),
            (2, .register 2), (3, .register 0)], 4⟩
          ⟨.Add, [some 0, some 1, some 2], [some 3], some 0⟩).2
        (cloneInstr
          ⟨[(0, .predicate none .PredicateTrue), (1, .register 1),
            (2, .register 2), (3, .register 0)], 4⟩
          ⟨.Add, [some 0, some 1, some 2], [some 3], some 0⟩).1 =
      instrRender (fun _ => "o")
        ⟨[(0, .predicate none .PredicateTrue), (1, .register 1),
          (2, .register 2), (3, .register 0)], 4⟩
        ⟨.Add, [some 0, some 1, some 2], [some 3], some 0⟩ ∧
    (∀ a ∈ (cloneInstr
          ⟨[(0, .predicate none .PredicateTrue), (1, .register 1),
            (2, .register 2), (3, .register 0)], 4⟩
          ⟨.Add, [some 0, some 1, some 2], [some 3], some 0⟩).1.addrs,
      ∀ v : OperandVal,
      ∀ b ∈ (⟨.Add, [some 0, some 1, some 2], [some 3], some 0⟩ :
          HInstr).addrs,
        ((cloneInstr
          ⟨[(0, .predicate none .PredicateTrue), (1, .register 1),
            (2, .register 2), (3, .register 0)], 4⟩
          ⟨.Add, [some 0, some 1, some 2], [some 3], some 0⟩).2.setAt
            a v).get b =
          (⟨[(0, .predicate none .PredicateTrue), (1, .register 1),
            (2, .register 2), (3, .register 0)], 4⟩ : Heap).get b) :=
  c8_clone_fidelity (fun _ => "o")
    ⟨[(0, .predicate none .PredicateTrue), (1, .register 1),
      (2, .register 2), (3, .register 0)], 4⟩
    ⟨.Add, [some 0, some 1, some 2], [some 3], some 0⟩
    (by unfold opsWF; decide) (by unfold opsWF; decide) rfl

end Vanaheimr
